import Mathlib

/-!
Verification of the service-state aggregation core of `edge-containers-cli`.

Shallow embedding of `K8sCommands._get_services`, `K8sCommands.ps` and
`K8sCommands.monitor` from `src/edge_containers_cli/cmds/k8s_commands.py`.

The external queries (kubectl / helm) are modelled by their parsed row
lists: the two workload CSVs (`deployment` then `statefulset`, columns
`name,image`), the pod-status CSV (columns `name,running,restarts`, where
`running` is the raw phase string before the `replace` call), and the helm
release JSON (columns `name,app_version,updated` after projection to the
columns the final `select` keeps).

Polars operations are embedded with their documented semantics:
`concat(how="diagonal")` on equal schemas is row concatenation in order;
`join(on="name", how="left")` keeps every left row in order, pairing it
with each matching right row in right order, or with nulls when no right
row matches; `replace({"Running": True}, default=False)` maps the phase
string to a boolean, sending nulls and any non-"Running" phase to false;
`fill_null(0)` turns a null restart count into 0; `str.slice(0, 19)`
truncates to the first 19 characters. The helm stage is the one place
with no emptiness guard: `polars.read_json` of the `[]` printed by
`helm list -o json` for a release-less namespace yields a zero-column
frame, so the subsequent `rename` raises an unhandled polars error;
executions reaching that stage with no release rows crash rather than
return records or a domain error, which the model records as a third
outcome distinct from the two `typer.Exit` conditions.
-/

namespace EdgeContainers

/-- One row of the workload CSV (`kubectl get deployment/statefulset`
with `jsonpath_deploy_info`): columns `name,image`. -/
structure WorkloadRow where
  name : String
  image : String
deriving Repr, DecidableEq

/-- One row of the pod-status CSV (`kubectl get pods` with
`jsonpath_pod_info`): columns `name,running,restarts`; `phase` is the raw
string in the `running` column before the boolean `replace`. -/
structure PodRow where
  name : String
  phase : String
  restarts : Nat
deriving Repr, DecidableEq

/-- One row of the `helm list -o json` output, already projected to the
columns the aggregation keeps and renamed (`app_version`, `updated`). -/
structure ReleaseRow where
  name : String
  app_version : String
  updated : String
deriving Repr, DecidableEq

/-- Intermediate row after the pod-status stage: workload columns plus the
booleanised `running` and the null-filled `restarts`. -/
structure PodJoined where
  name : String
  image : String
  running : Bool
  restarts : Nat
deriving Repr, DecidableEq

/-- A row of the final dataframe, after
`select ["name", "version", "running", "restarts", "deployed", "image"]`.
`version`/`deployed` are `none` when the left join against the helm
releases found no match (null cells). -/
structure ServiceRecord where
  name : String
  version : Option String
  running : Bool
  restarts : Nat
  deployed : Option String
  image : String
deriving Repr, DecidableEq

/-- The two domain failure conditions of `_get_services`; both are
signalled in the source by printing a message and raising `typer.Exit()`. -/
inductive EcError where
  | emptyCluster
  | noRunningServices
deriving Repr, DecidableEq

/-- Result of a call into `_get_services` (or of a stage built on it):
either a value, one of the two handled domain errors above, or `crash` —
an unhandled exception escaping the function. The only crash site on
this path is the helm stage (lines 218-224): it has no emptiness guard,
so with zero releases `helm list -o json` prints `[]`,
`polars.read_json` yields a zero-column frame (no schema is inferable
from an empty JSON array) and the following
`rename({"app_version": ..., "updated": ...})` (and `with_columns`/
`join(on="name")`) raise an unhandled polars column-not-found error. -/
inductive Outcome (α : Type) where
  | ok (val : α)
  | error (e : EcError)
  | crash
deriving Repr, DecidableEq

/-- Map over the value of a successful outcome, preserving domain errors
and crashes. -/
def Outcome.map {α β : Type} (f : α → β) : Outcome α → Outcome β
  | .ok a => .ok (f a)
  | .error e => .error e
  | .crash => .crash

/-- The workload base population: `polars.concat([...], how="diagonal")`
of the deployment rows and then the statefulset rows (loop order
`["deployment", "statefulset"]`); plain row concatenation, no
deduplication. -/
def baseRows (dep sts : List WorkloadRow) : List WorkloadRow :=
  dep ++ sts

/-- Left-join one workload row against the pod-status rows, then apply
`replace({"Running": True}, default=False)` and `fill_null(0)`: no match
gives a single row with `running=false, restarts=0`; each match gives a
row whose `running` is whether the phase equals `"Running"`. -/
def joinPodsOne (pods : List PodRow) (w : WorkloadRow) : List PodJoined :=
  match pods.filter (fun p => p.name == w.name) with
  | [] => [⟨w.name, w.image, false, 0⟩]
  | ms => ms.map (fun p => ⟨w.name, w.image, p.phase == "Running", p.restarts⟩)

/-- `services_df.join(gtpo_df, on="name", how="left")` followed by the
`replace`/`fill_null` normalisation, over the whole base population. -/
def joinPods (base : List WorkloadRow) (pods : List PodRow) : List PodJoined :=
  base.flatMap (joinPodsOne pods)

/-- Left-join one pod-joined row against the helm release rows
(`join(helm_df, on="name", how="left")`), with `deployed` truncated by
`str.slice(0, 19)`; no match leaves `version`/`deployed` null. -/
def joinRelsOne (rels : List ReleaseRow) (s : PodJoined) : List ServiceRecord :=
  match rels.filter (fun r => r.name == s.name) with
  | [] => [⟨s.name, none, s.running, s.restarts, none, s.image⟩]
  | ms => ms.map (fun r =>
      ⟨s.name, some r.app_version, s.running, s.restarts,
        some (r.updated.take 19), s.image⟩)

/-- The helm release left join over the whole population. -/
def joinRels (rows : List PodJoined) (rels : List ReleaseRow) : List ServiceRecord :=
  rows.flatMap (joinRelsOne rels)

/-- `K8sCommands._get_services(all)`, lines 170-234 of
`k8s_commands.py`:
1. concatenate the deployment and statefulset rows; if empty, print
   "No deployed services found" and `raise typer.Exit()` (`emptyCluster`);
2. if the pod query produced rows, left-join them on `name` and normalise
   `running`/`restarts`; otherwise, if `all`, synthesize
   `running=false, restarts=0`; otherwise print "No running services
   found" and `raise typer.Exit()` (`noRunningServices`);
3. run the helm stage, which has no emptiness guard: with no release
   rows, `polars.read_json` of the `[]` helm output yields a zero-column
   frame, and `rename`/`with_columns`/`join(on="name")` raise an
   unhandled polars error (`crash`); otherwise left-join the release
   rows on `name`;
4. select the six columns; if not `all`, filter to `running == true`. -/
def getServices (dep sts : List WorkloadRow) (pods : List PodRow)
    (rels : List ReleaseRow) (all : Bool) : Outcome (List ServiceRecord) :=
  let base := baseRows dep sts
  if base.isEmpty then
    .error .emptyCluster
  else
    let step2 : Outcome (List PodJoined) :=
      if !pods.isEmpty then
        .ok (joinPods base pods)
      else if all then
        .ok (base.map (fun w => ⟨w.name, w.image, false, 0⟩))
      else
        .error .noRunningServices
    match step2 with
    | .error e => .error e
    | .crash => .crash
    | .ok withPods =>
      if rels.isEmpty then
        .crash
      else
        let recs := joinRels withPods rels
        if all then .ok recs else .ok (recs.filter (fun r => r.running == true))

/-- The column list of the final `select` in `_get_services`. -/
def selectColumns : List String :=
  ["name", "version", "running", "restarts", "deployed", "image"]

/-- The columns `ps` prints: the selected columns, with
`drop_in_place("image")` applied when not `wide`. -/
def psColumns (wide : Bool) : List String :=
  if wide then selectColumns else selectColumns.filter (fun c => c != "image")

/-- The cells of one record in `select` order. -/
def rowCells (r : ServiceRecord) : List String :=
  [r.name, r.version.getD "", if r.running then "true" else "false",
    toString r.restarts, r.deployed.getD "", r.image]

/-- The cells `ps` prints for one record: `drop_in_place("image")` removes
the image cell when not `wide`. -/
def psRowCells (wide : Bool) (r : ServiceRecord) : List String :=
  if wide then rowCells r
  else [r.name, r.version.getD "", if r.running then "true" else "false",
    toString r.restarts, r.deployed.getD ""]

/-- `K8sCommands.ps(all, wide)`: the table printed, as header plus one
cell row per record, for a successful aggregation; a domain error or an
unhandled exception in `_get_services` propagates. -/
def ps (dep sts : List WorkloadRow) (pods : List PodRow)
    (rels : List ReleaseRow) (all wide : Bool) :
    Outcome (List String × List (List String)) :=
  match getServices dep sts pods rels all with
  | .error e => .error e
  | .crash => .crash
  | .ok recs => .ok (psColumns wide, recs.map (psRowCells wide))

/-- How a domain failure is signalled at the raise site: the printed
message, the exception class raised, and the exit code the exception
carries (`typer.Exit()` is called with no argument at both sites; its
`code` parameter defaults to 0). -/
structure ExitSignal where
  message : String
  excClass : String
  code : Nat
deriving Repr, DecidableEq

/-- The default `code` of `typer.Exit`. -/
def typerExitDefaultCode : Nat := 0

/-- The exit code of a clean (non-raising) CLI run. -/
def successExitCode : Nat := 0

/-- The signal produced at each of the two raise sites of
`_get_services` (lines 188-190 and 213-215). -/
def signalOf : EcError → ExitSignal
  | .emptyCluster =>
      ⟨"No deployed services found", "typer.Exit", typerExitDefaultCode⟩
  | .noRunningServices =>
      ⟨"No running services found", "typer.Exit", typerExitDefaultCode⟩

/-- `K8sCommands.monitor(all)`, lines 244-247: it first calls
`self._get_services(all)` directly; a `typer.Exit` raised there
propagates, so the monitor terminates before `MonitorApp` is ever
constructed. On success the app is started with the snapshot. -/
def monitorStart (dep sts : List WorkloadRow) (pods : List PodRow)
    (rels : List ReleaseRow) (all : Bool) : Outcome (List ServiceRecord) :=
  match getServices dep sts pods rels all with
  | .error e => .error e
  | .crash => .crash
  | .ok recs => .ok recs

/-- What the refresh loop does after one poll completes. -/
inductive LoopAction where
  | continuePolling
  | stop
deriving Repr, DecidableEq

/-- Modelled from the spec: the `MonitorApp` refresh loop body is not in
the sources (`edge_containers_cli/cmds/monitor.py` is absent); per §4.3,
§7 and Scenario D, a poll failing with `NoRunningServicesError` is a
transient, renderable state and another poll is scheduled after the
configured interval, while `EmptyClusterError` is terminal and stops the
loop; a successful poll re-renders and continues. An unhandled exception
escaping a poll ends the loop. -/
def monitorLoopStep : Outcome (List ServiceRecord) → LoopAction
  | .ok _ => .continuePolling
  | .error .noRunningServices => .continuePolling
  | .error .emptyCluster => .stop
  | .crash => .stop

/-! ## Helper lemmas about the join stages -/

theorem mem_joinPodsOne (pods : List PodRow) (w : WorkloadRow) (s : PodJoined)
    (hs : s ∈ joinPodsOne pods w) :
    s.name = w.name ∧ s.image = w.image := by
  unfold joinPodsOne at hs
  rcases hf : pods.filter (fun p => p.name == w.name) with _ | ⟨p, ps⟩ <;> rw [hf] at hs
  · simp only [List.mem_singleton] at hs
    subst hs; exact ⟨rfl, rfl⟩
  · simp only [List.mem_map] at hs
    obtain ⟨q, _, hq⟩ := hs
    subst hq; exact ⟨rfl, rfl⟩

theorem running_joinPodsOne (pods : List PodRow) (w : WorkloadRow) (s : PodJoined)
    (hpods : ∀ p ∈ pods, p.phase ≠ "Running") (hs : s ∈ joinPodsOne pods w) :
    s.running = false := by
  unfold joinPodsOne at hs
  rcases hf : pods.filter (fun p => p.name == w.name) with _ | ⟨p, ps⟩ <;> rw [hf] at hs
  · simp only [List.mem_singleton] at hs
    subst hs; rfl
  · simp only [List.mem_map] at hs
    obtain ⟨q, hq_mem, hq⟩ := hs
    have hq_pods : q ∈ pods := by
      have hsub : List.Sublist (p :: ps) pods :=
        hf ▸ List.filter_sublist pods
      exact hsub.subset hq_mem
    subst hq
    simpa using hpods q hq_pods

theorem mem_joinRelsOne (rels : List ReleaseRow) (s : PodJoined) (r : ServiceRecord)
    (hr : r ∈ joinRelsOne rels s) :
    r.name = s.name ∧ r.running = s.running ∧ r.restarts = s.restarts ∧
      r.image = s.image := by
  unfold joinRelsOne at hr
  rcases hf : rels.filter (fun q => q.name == s.name) with _ | ⟨q, qs⟩ <;> rw [hf] at hr
  · simp only [List.mem_singleton] at hr
    subst hr; exact ⟨rfl, rfl, rfl, rfl⟩
  · simp only [List.mem_map] at hr
    obtain ⟨q, _, hq⟩ := hr
    subst hq; exact ⟨rfl, rfl, rfl, rfl⟩

/-- With pairwise-distinct keys, a key-equality filter keeps at most one
row: its tail is empty. -/
theorem filter_key_tail_nil {α : Type} (key : α → String) (l : List α) (x : String)
    (h : (l.map key).Nodup) (a : α) (tl : List α)
    (hf : l.filter (fun b => key b == x) = a :: tl) : tl = [] := by
  have hsub0 : List.Sublist (a :: tl) l := hf ▸ List.filter_sublist l
  have hsub : List.Sublist ((a :: tl).map key) (l.map key) := hsub0.map key
  have hnd : ((a :: tl).map key).Nodup := hsub.nodup h
  have hall : ∀ b ∈ a :: tl, key b = x := by
    intro b hb
    have hmf : b ∈ l.filter (fun b => key b == x) := hf ▸ hb
    have hbx := List.of_mem_filter hmf
    simp only [beq_iff_eq] at hbx
    exact hbx
  rcases tl with _ | ⟨c, cs⟩
  · rfl
  · exfalso
    rw [List.map_cons] at hnd
    have hmem : key a ∈ (c :: cs).map key :=
      List.mem_map.mpr
        ⟨c, List.mem_cons_self c cs, (hall c (by simp)).trans (hall a (by simp)).symm⟩
    exact (List.nodup_cons.mp hnd).1 hmem

theorem joinPodsOne_map_name (pods : List PodRow) (w : WorkloadRow)
    (h : (pods.map PodRow.name).Nodup) :
    (joinPodsOne pods w).map PodJoined.name = [w.name] := by
  unfold joinPodsOne
  rcases hf : pods.filter (fun p => p.name == w.name) with _ | ⟨p, ps⟩
  · rw [hf]; rfl
  · have hnil : ps = [] := filter_key_tail_nil PodRow.name pods w.name h p ps hf
    subst hnil; rw [hf]; rfl

theorem joinRelsOne_map_name (rels : List ReleaseRow) (s : PodJoined)
    (h : (rels.map ReleaseRow.name).Nodup) :
    (joinRelsOne rels s).map ServiceRecord.name = [s.name] := by
  unfold joinRelsOne
  rcases hf : rels.filter (fun q => q.name == s.name) with _ | ⟨q, qs⟩
  · rw [hf]; rfl
  · have hnil : qs = [] := filter_key_tail_nil ReleaseRow.name rels s.name h q qs hf
    subst hnil; rw [hf]; rfl

/-- The release left join against the one-row release table whose name
matches the joined row fills `version` and the truncated `deployed`. -/
theorem joinRelsOne_single_match (s : PodJoined) (v u : String) :
    joinRelsOne [⟨s.name, v, u⟩] s =
      [⟨s.name, some v, s.running, s.restarts, some (u.take 19), s.image⟩] := by
  unfold joinRelsOne
  have hf : List.filter (fun r => r.name == s.name)
      ([⟨s.name, v, u⟩] : List ReleaseRow) = [⟨s.name, v, u⟩] := by simp
  rw [hf]
  rfl

/-- A `flatMap` whose pieces each contribute exactly one name contributes
the base names in order. -/
theorem flatMap_map_key {α β : Type} (g : α → List β) (keyA : α → String)
    (keyB : β → String) (l : List α) (h : ∀ a, (g a).map keyB = [keyA a]) :
    (l.flatMap g).map keyB = l.map keyA := by
  induction l with
  | nil => rfl
  | cons x xs ih =>
      simp only [List.flatMap_cons, List.map_append, h, ih, List.map_cons,
        List.singleton_append]

theorem joinPods_map_name (base : List WorkloadRow) (pods : List PodRow)
    (h : (pods.map PodRow.name).Nodup) :
    (joinPods base pods).map PodJoined.name = base.map WorkloadRow.name :=
  flatMap_map_key (joinPodsOne pods) WorkloadRow.name PodJoined.name base
    (fun w => joinPodsOne_map_name pods w h)

theorem joinRels_map_name (rows : List PodJoined) (rels : List ReleaseRow)
    (h : (rels.map ReleaseRow.name).Nodup) :
    (joinRels rows rels).map ServiceRecord.name = rows.map PodJoined.name :=
  flatMap_map_key (joinRelsOne rels) PodJoined.name ServiceRecord.name rows
    (fun s => joinRelsOne_map_name rels s h)

/-- Evaluation of `_get_services(all=True)` when the base population, the
pod query and the release list are all non-empty: the two joins run and
nothing is filtered. -/
theorem getServices_shape_all (dep sts : List WorkloadRow) (pods : List PodRow)
    (rels : List ReleaseRow)
    (hW : baseRows dep sts ≠ []) (hP : pods ≠ []) (hR : rels ≠ []) :
    getServices dep sts pods rels true =
      .ok (joinRels (joinPods (baseRows dep sts) pods) rels) := by
  unfold getServices
  rcases hb : baseRows dep sts with _ | ⟨w, ws⟩
  · exact absurd hb hW
  · rcases pods with _ | ⟨p, ps⟩
    · exact absurd rfl hP
    · rcases rels with _ | ⟨q, qs⟩
      · exact absurd rfl hR
      · simp [hb]

/-- Evaluation of `_get_services(all=False)` when the base population, the
pod query and the release list are all non-empty: the joins run and the
result is filtered to `running == true`. -/
theorem getServices_shape_filter (dep sts : List WorkloadRow) (pods : List PodRow)
    (rels : List ReleaseRow)
    (hW : baseRows dep sts ≠ []) (hP : pods ≠ []) (hR : rels ≠ []) :
    getServices dep sts pods rels false =
      .ok ((joinRels (joinPods (baseRows dep sts) pods) rels).filter
        (fun r => r.running == true)) := by
  unfold getServices
  rcases hb : baseRows dep sts with _ | ⟨w, ws⟩
  · exact absurd hb hW
  · rcases pods with _ | ⟨p, ps⟩
    · exact absurd rfl hP
    · rcases rels with _ | ⟨q, qs⟩
      · exact absurd rfl hR
      · simp [hb]

/-- Evaluation of `_get_services(all=True)` when the base population is
non-empty, the pod query returned nothing and at least one release
exists: `running=false, restarts=0` is synthesized for every base row. -/
theorem getServices_noPods_all (dep sts : List WorkloadRow) (rels : List ReleaseRow)
    (hW : baseRows dep sts ≠ []) (hR : rels ≠ []) :
    getServices dep sts [] rels true =
      .ok (joinRels ((baseRows dep sts).map fun w => ⟨w.name, w.image, false, 0⟩) rels) := by
  unfold getServices
  rcases hb : baseRows dep sts with _ | ⟨w, ws⟩
  · exact absurd hb hW
  · rcases rels with _ | ⟨q, qs⟩
    · exact absurd rfl hR
    · simp [hb]

/-- Evaluation of `_get_services(all=False)` when the base population is
non-empty but the pod query returned nothing: raised at the pod stage,
before the helm stage runs, whatever the release list holds. -/
theorem getServices_noPods_raise (dep sts : List WorkloadRow) (rels : List ReleaseRow)
    (hW : baseRows dep sts ≠ []) :
    getServices dep sts [] rels false = .error .noRunningServices := by
  unfold getServices
  rcases hb : baseRows dep sts with _ | ⟨w, ws⟩
  · exact absurd hb hW
  · simp [hb]

/-- Evaluation of `_get_services` when execution reaches the helm stage
(non-empty base population and either pod rows or `all=True`) with no
release rows: the unguarded `read_json`/`rename` sequence raises an
unhandled polars error. -/
theorem getServices_empty_rels_crash (dep sts : List WorkloadRow)
    (pods : List PodRow) (all : Bool)
    (hW : baseRows dep sts ≠ []) (hstep : pods ≠ [] ∨ all = true) :
    getServices dep sts pods [] all = .crash := by
  unfold getServices
  rcases hb : baseRows dep sts with _ | ⟨w, ws⟩
  · exact absurd hb hW
  · rcases pods with _ | ⟨p, ps⟩
    · rcases hstep with hne | hall
      · exact absurd rfl hne
      · subst hall
        simp [hb]
    · simp [hb]

/-- Every record produced by the release join takes its name from some
row of the joined population. -/
theorem names_joinRels_sub (rows : List PodJoined) (rels : List ReleaseRow)
    (r : ServiceRecord) (hr : r ∈ joinRels rows rels) :
    ∃ s ∈ rows, r.name = s.name := by
  obtain ⟨s, hs_mem, hs⟩ := List.mem_flatMap.mp hr
  exact ⟨s, hs_mem, (mem_joinRelsOne rels s r hs).1⟩

/-- Every row produced by the pod join takes its name from some workload
row of the base population. -/
theorem names_joinPods_sub (base : List WorkloadRow) (pods : List PodRow)
    (s : PodJoined) (hs : s ∈ joinPods base pods) :
    ∃ w ∈ base, s.name = w.name := by
  obtain ⟨w, hw_mem, hw⟩ := List.mem_flatMap.mp hs
  exact ⟨w, hw_mem, (mem_joinPodsOne pods w s hw).1⟩

/-! ## The claims -/

/-- C3: for every namespace, if the union of the deployment and
statefulset workload queries returns no rows at all, aggregate fails with
`EmptyClusterError`, for both `includeAll=true` and `includeAll=false`;
the result is the same whatever the pod and release queries would have
returned, so neither is consulted. -/
theorem C3_empty_workload_raises_emptyCluster (pods : List PodRow)
    (rels : List ReleaseRow) (all : Bool) :
    getServices [] [] pods rels all = .error .emptyCluster := rfl

/-- C6 counterexample: a name present in both workload kinds is kept
twice by the `concat`-style union; with one Running pod and one release
for that name, the output holds two records (one per kind, each with its
own image), not a single later-wins record carrying the statefulset
image. -/
theorem C6_counterexample :
    getServices [⟨"dup", "img-dep"⟩] [⟨"dup", "img-sts"⟩]
        [⟨"dup", "Running", 0⟩] [⟨"dup", "1.0", "2024-01-01 10:00:00"⟩] true =
      .ok [⟨"dup", some "1.0", true, 0, some "2024-01-01 10:00:00", "img-dep"⟩,
        ⟨"dup", some "1.0", true, 0, some "2024-01-01 10:00:00", "img-sts"⟩] ∧
    getServices [⟨"dup", "img-dep"⟩] [⟨"dup", "img-sts"⟩]
        [⟨"dup", "Running", 0⟩] [⟨"dup", "1.0", "2024-01-01 10:00:00"⟩] true ≠
      .ok [⟨"dup", some "1.0", true, 0, some "2024-01-01 10:00:00", "img-sts"⟩] := by
  refine ⟨rfl, ?_⟩
  intro hcontra
  rw [show getServices [⟨"dup", "img-dep"⟩] [⟨"dup", "img-sts"⟩]
      [⟨"dup", "Running", 0⟩] [⟨"dup", "1.0", "2024-01-01 10:00:00"⟩] true =
    .ok [⟨"dup", some "1.0", true, 0, some "2024-01-01 10:00:00", "img-dep"⟩,
      ⟨"dup", some "1.0", true, 0, some "2024-01-01 10:00:00", "img-sts"⟩]
    from rfl] at hcontra
  exact absurd (Outcome.ok.inj hcontra) (by decide)

/-- C6 amended: when building the workload base population, a name
appearing in both the deployment rows and the statefulset rows yields two
records — the deployment one first, then the statefulset one, each
keeping its own image — because the union is a plain row concatenation
with no deduplication; shown through the whole pipeline against any
single release row for that name. -/
theorem C6_amended_concat_keeps_both (n i1 i2 v u : String) :
    baseRows [⟨n, i1⟩] [⟨n, i2⟩] = [⟨n, i1⟩, ⟨n, i2⟩] ∧
    getServices [⟨n, i1⟩] [⟨n, i2⟩] [] [⟨n, v, u⟩] true =
      .ok [⟨n, some v, false, 0, some (u.take 19), i1⟩,
        ⟨n, some v, false, 0, some (u.take 19), i2⟩] := by
  refine ⟨rfl, ?_⟩
  rw [getServices_noPods_all [⟨n, i1⟩] [⟨n, i2⟩] [⟨n, v, u⟩]
      (by simp [baseRows]) (by simp),
    show joinRels ((baseRows [⟨n, i1⟩] [⟨n, i2⟩]).map
        fun w => ⟨w.name, w.image, false, 0⟩) [⟨n, v, u⟩] =
      joinRelsOne [⟨n, v, u⟩] ⟨n, i1, false, 0⟩ ++
        (joinRelsOne [⟨n, v, u⟩] ⟨n, i2, false, 0⟩ ++ []) from rfl,
    joinRelsOne_single_match ⟨n, i1, false, 0⟩ v u,
    joinRelsOne_single_match ⟨n, i2, false, 0⟩ v u]
  rfl

/-- C8: for every successful aggregation, `ps` outputs the columns in the
fixed order name, version, running, restarts, deployed, image when
`wide=true`, and exactly the same table minus the (final) image column
when `wide=false`. -/
theorem C8_ps_column_projection (dep sts : List WorkloadRow) (pods : List PodRow)
    (rels : List ReleaseRow) (all : Bool) :
    psColumns true = ["name", "version", "running", "restarts", "deployed", "image"] ∧
    psColumns false = ["name", "version", "running", "restarts", "deployed"] ∧
    ps dep sts pods rels all false =
      Outcome.map (fun t => (t.1.dropLast, t.2.map List.dropLast))
        (ps dep sts pods rels all true) := by
  refine ⟨rfl, by decide, ?_⟩
  unfold ps
  cases getServices dep sts pods rels all with
  | error e => rfl
  | crash => rfl
  | ok recs =>
      have hfn : psRowCells false = List.dropLast ∘ psRowCells true := by
        funext r; rfl
      simp only [Outcome.map, List.map_map, hfn]
      exact congrArg Outcome.ok (congrArg (fun c => (c, _)) (by decide))

/-- C9 counterexample: `monitor` performs the first aggregation itself,
before the refresh loop exists; if that first poll finds a non-empty
workload population but no pod rows with `all=false`, the
`NoRunningServicesError` `typer.Exit` propagates and the monitor
terminates instead of keeping running. -/
theorem C9_counterexample :
    monitorStart [⟨"svc1", "img1"⟩] [] [] [] false = .error .noRunningServices ∧
    getServices [⟨"svc1", "img1"⟩] [] [] [] false = .error .noRunningServices :=
  ⟨rfl, rfl⟩

/-- C9 amended: within the refresh loop (modelled from the spec, the
`MonitorApp` source being absent), a poll failing with
`NoRunningServicesError` schedules another poll while `EmptyClusterError`
stops the loop; however the initial aggregation run by `monitor` before
the loop starts terminates the monitor on any aggregation failure,
including `NoRunningServicesError`. -/
theorem C9_amended_monitor (recs : List ServiceRecord) :
    monitorLoopStep (.ok recs) = .continuePolling ∧
    monitorLoopStep (.error .noRunningServices) = .continuePolling ∧
    monitorLoopStep (.error .emptyCluster) = .stop ∧
    (∀ (dep sts : List WorkloadRow) (pods : List PodRow) (rels : List ReleaseRow)
      (all : Bool) (e : EcError), getServices dep sts pods rels all = .error e →
        monitorStart dep sts pods rels all = .error e) := by
  refine ⟨rfl, rfl, rfl, ?_⟩
  intro dep sts pods rels all e h
  unfold monitorStart
  rw [h]

/-- C9 witness: the amended statement applied to a concrete failing first
poll (empty workload population). -/
theorem C9_amended_monitor_witness :
    monitorStart [] [] [] [] true = .error .emptyCluster :=
  (C9_amended_monitor []).2.2.2 [] [] [] [] true .emptyCluster rfl

/-- C10: both domain failure conditions are signalled by printing a
message and raising the same exception class `typer.Exit` with its
default code 0, so a caller can distinguish neither the two conditions
from each other nor either of them from a clean success exit by exception
type or process exit status. -/
theorem C10_exit_indistinguishable :
    (signalOf .emptyCluster).excClass = "typer.Exit" ∧
    (signalOf .noRunningServices).excClass = "typer.Exit" ∧
    (signalOf .emptyCluster).code = (signalOf .noRunningServices).code ∧
    (signalOf .emptyCluster).code = typerExitDefaultCode ∧
    (signalOf .emptyCluster).code = successExitCode ∧
    (signalOf .noRunningServices).code = successExitCode :=
  ⟨rfl, rfl, rfl, rfl, rfl, rfl⟩

/-- C1 counterexample: with a pod row present but reporting phase
"Pending" instead of "Running" (and a release recorded for the service),
`aggregate(includeAll=false)` does not fail with
`NoRunningServicesError` — it returns the empty record set. -/
theorem C1_counterexample :
    getServices [⟨"svcA", "imgX"⟩] [] [⟨"svcA", "Pending", 0⟩]
        [⟨"svcA", "1.0", "2024-01-01 10:00:00"⟩] false = .ok [] ∧
    getServices [⟨"svcA", "imgX"⟩] [] [⟨"svcA", "Pending", 0⟩]
        [⟨"svcA", "1.0", "2024-01-01 10:00:00"⟩] false ≠
      .error .noRunningServices := by
  refine ⟨rfl, ?_⟩
  intro hcontra
  rw [show getServices [⟨"svcA", "imgX"⟩] [] [⟨"svcA", "Pending", 0⟩]
      [⟨"svcA", "1.0", "2024-01-01 10:00:00"⟩] false =
    .ok [] from rfl] at hcontra
  exact Outcome.noConfusion hcontra

/-- C1 amended: for a non-empty workload population,
`aggregate(includeAll=false)` fails with `NoRunningServicesError` exactly
when the pod-status query returns no rows at all; when pod rows exist but
none of them has phase "Running", it does not raise that error — if at
least one release exists it succeeds with the empty record set (and with
no releases at all the unguarded helm stage crashes instead). -/
theorem C1_amended_noRunning (dep sts : List WorkloadRow) (pods : List PodRow)
    (rels : List ReleaseRow) (hW : baseRows dep sts ≠ []) :
    (getServices dep sts pods rels false = .error .noRunningServices ↔ pods = []) ∧
    ((∀ p ∈ pods, p.phase ≠ "Running") → pods ≠ [] → rels ≠ [] →
      getServices dep sts pods rels false = .ok []) := by
  constructor
  · constructor
    · intro h
      by_contra hp
      rcases hrels : rels with _ | ⟨q, qs⟩
      · subst hrels
        rw [getServices_empty_rels_crash dep sts pods false hW (Or.inl hp)] at h
        exact Outcome.noConfusion h
      · have hR : rels ≠ [] := by rw [hrels]; exact List.cons_ne_nil q qs
        rw [getServices_shape_filter dep sts pods rels hW hp hR] at h
        exact Outcome.noConfusion h
    · intro h
      subst h
      exact getServices_noPods_raise dep sts rels hW
  · intro hph hp hR
    rw [getServices_shape_filter dep sts pods rels hW hp hR]
    have hrun : ∀ r ∈ joinRels (joinPods (baseRows dep sts) pods) rels,
        r.running = false := by
      intro r hr
      obtain ⟨s, hs_mem, hs⟩ := List.mem_flatMap.mp hr
      obtain ⟨w, hw_mem, hw⟩ := List.mem_flatMap.mp hs_mem
      rw [(mem_joinRelsOne rels s r hs).2.1]
      exact running_joinPodsOne pods w s hph hw
    have hnil : (joinRels (joinPods (baseRows dep sts) pods) rels).filter
        (fun r => r.running == true) = [] := by
      rw [List.filter_eq_nil_iff]
      intro r hr
      rw [hrun r hr]
      decide
    rw [hnil]

/-- C1 witness: the amended statement applied to one workload row, one
non-Running pod row and one release row. -/
theorem C1_amended_noRunning_witness :
    getServices [⟨"a", "i"⟩] [] [⟨"a", "Pending", 3⟩]
      [⟨"a", "1.0", "2024-01-01 10:00:00"⟩] false = .ok [] :=
  (C1_amended_noRunning [⟨"a", "i"⟩] [] [⟨"a", "Pending", 3⟩]
    [⟨"a", "1.0", "2024-01-01 10:00:00"⟩]
    (by decide)).2 (by decide) (by decide) (by decide)

/-- C2 counterexample: with a non-empty workload population, no pod rows
and one release row, `aggregate(includeAll=true)` succeeds, but
`aggregate(includeAll=false)` raises `NoRunningServicesError` instead of
returning the running-filtered (empty) record set. -/
theorem C2_counterexample :
    getServices [⟨"svcB", "imgY"⟩] [] []
        [⟨"svcB", "2.0", "2024-06-01 12:00:00"⟩] true =
      .ok [⟨"svcB", some "2.0", false, 0, some "2024-06-01 12:00:00", "imgY"⟩] ∧
    getServices [⟨"svcB", "imgY"⟩] [] []
        [⟨"svcB", "2.0", "2024-06-01 12:00:00"⟩] false ≠
      .ok (([⟨"svcB", some "2.0", false, 0, some "2024-06-01 12:00:00", "imgY"⟩] :
        List ServiceRecord).filter (fun r => r.running == true)) := by
  refine ⟨rfl, ?_⟩
  intro hcontra
  rw [show getServices [⟨"svcB", "imgY"⟩] [] []
      [⟨"svcB", "2.0", "2024-06-01 12:00:00"⟩] false =
    .error .noRunningServices from rfl] at hcontra
  exact Outcome.noConfusion hcontra

/-- C2 amended: whenever the pod-status query returns at least one row
(so that neither call can raise `NoRunningServicesError`), the output of
`aggregate(includeAll=false)` equals the output of
`aggregate(includeAll=true)` filtered to `running == true`, with the
column set unchanged. -/
theorem C2_amended_filter_law (dep sts : List WorkloadRow) (pods : List PodRow)
    (rels : List ReleaseRow) (recs : List ServiceRecord) (hP : pods ≠ [])
    (h : getServices dep sts pods rels true = .ok recs) :
    getServices dep sts pods rels false =
      .ok (recs.filter (fun r => r.running == true)) := by
  have hW : baseRows dep sts ≠ [] := by
    intro hb
    simp [getServices, hb] at h
  have hR : rels ≠ [] := by
    intro hrels
    subst hrels
    rw [getServices_empty_rels_crash dep sts pods true hW (Or.inl hP)] at h
    exact Outcome.noConfusion h
  have htrue := getServices_shape_all dep sts pods rels hW hP hR
  rw [h] at htrue
  have hrecs := Outcome.ok.inj htrue
  rw [getServices_shape_filter dep sts pods rels hW hP hR, hrecs]

/-- C2 witness: the amended filtering law applied to one workload row with
one Running pod row and one release row. -/
theorem C2_amended_filter_law_witness :
    getServices [⟨"a", "i"⟩] [] [⟨"a", "Running", 1⟩]
        [⟨"a", "2.0", "2024-06-01 12:00:00"⟩] false =
      .ok (([⟨"a", some "2.0", true, 1, some "2024-06-01 12:00:00", "i"⟩] :
        List ServiceRecord).filter (fun r => r.running == true)) :=
  C2_amended_filter_law [⟨"a", "i"⟩] [] [⟨"a", "Running", 1⟩]
    [⟨"a", "2.0", "2024-06-01 12:00:00"⟩]
    [⟨"a", some "2.0", true, 1, some "2024-06-01 12:00:00", "i"⟩] (by decide) rfl

/-- C4 counterexample: a workload row set holding the single distinct name
"dup" (once per workload kind) with an empty pod query and one release
row yields two records for that name under `includeAll=true`, not exactly
one record per name. -/
theorem C4_counterexample :
    getServices [⟨"dup", "img1"⟩] [⟨"dup", "img2"⟩] []
        [⟨"dup", "1.0", "2024-01-01 10:00:00"⟩] true =
      .ok [⟨"dup", some "1.0", false, 0, some "2024-01-01 10:00:00", "img1"⟩,
        ⟨"dup", some "1.0", false, 0, some "2024-01-01 10:00:00", "img2"⟩] ∧
    ([⟨"dup", some "1.0", false, 0, some "2024-01-01 10:00:00", "img1"⟩,
      ⟨"dup", some "1.0", false, 0, some "2024-01-01 10:00:00", "img2"⟩] :
        List ServiceRecord).map ServiceRecord.name = ["dup", "dup"] ∧
    ((baseRows [⟨"dup", "img1"⟩] [⟨"dup", "img2"⟩]).map WorkloadRow.name).dedup =
      ["dup"] :=
  ⟨rfl, rfl, by decide⟩

/-- C4 amended: for a non-empty workload row set `W` whose release list is
non-empty with pairwise-distinct names, if the pod-status query returns
no rows at all then `aggregate(includeAll=true)` returns exactly one
record per row of `W` (names in `W` order, hence exactly one per name
when the names of `W` are distinct), each with `running=false` and
`restarts=0`, while `aggregate(includeAll=false)` fails with
`NoRunningServicesError`; with an empty release list the `includeAll=true`
call instead crashes in the unguarded helm stage. -/
theorem C4_amended_empty_pods (dep sts : List WorkloadRow) (rels : List ReleaseRow)
    (hW : baseRows dep sts ≠ []) (hRne : rels ≠ [])
    (hR : (rels.map ReleaseRow.name).Nodup) :
    (∃ recs, getServices dep sts [] rels true = .ok recs ∧
      recs.map ServiceRecord.name = (baseRows dep sts).map WorkloadRow.name ∧
      ∀ r ∈ recs, r.running = false ∧ r.restarts = 0) ∧
    getServices dep sts [] rels false = .error .noRunningServices := by
  have h1 := getServices_noPods_all dep sts rels hW hRne
  refine ⟨⟨_, h1, ?_, ?_⟩, getServices_noPods_raise dep sts rels hW⟩
  · rw [joinRels_map_name _ rels hR, List.map_map]
    rfl
  · intro r hr
    obtain ⟨s, hs_mem, hs⟩ := List.mem_flatMap.mp hr
    obtain ⟨w, _, hw⟩ := List.mem_map.mp hs_mem
    have h3 := mem_joinRelsOne rels s r hs
    subst hw
    exact ⟨h3.2.1, h3.2.2.1⟩

/-- C4 witness: the amended statement applied to a single workload row
with no pod rows and one (unrelated) release row. -/
theorem C4_amended_empty_pods_witness :
    getServices [⟨"a", "i"⟩] [] [] [⟨"zz", "1.0", "2024-01-01 10:00:00"⟩] false =
      .error .noRunningServices :=
  (C4_amended_empty_pods [⟨"a", "i"⟩] [] [⟨"zz", "1.0", "2024-01-01 10:00:00"⟩]
    (by decide) (by decide) (by decide)).2

/-- C5 counterexample: two pod-status rows carrying the same name (two
pods of one scaled, helm-released service) double the record for that
service, so the returned names are not pairwise distinct. -/
theorem C5_counterexample :
    getServices [⟨"a", "i"⟩] [] [⟨"a", "Running", 1⟩, ⟨"a", "Running", 2⟩]
        [⟨"a", "1.0", "2024-01-01 10:00:00"⟩] true =
      .ok [⟨"a", some "1.0", true, 1, some "2024-01-01 10:00:00", "i"⟩,
        ⟨"a", some "1.0", true, 2, some "2024-01-01 10:00:00", "i"⟩] ∧
    ¬ (([⟨"a", some "1.0", true, 1, some "2024-01-01 10:00:00", "i"⟩,
        ⟨"a", some "1.0", true, 2, some "2024-01-01 10:00:00", "i"⟩] :
          List ServiceRecord).map ServiceRecord.name).Nodup :=
  ⟨rfl, by decide⟩

/-- C5 amended: every record set returned by aggregate has pairwise
distinct names provided the workload names, the pod-status names and the
release names are each pairwise distinct; a name occurring in both
workload kinds, or repeated pod/release rows for one name, break the
uniqueness. -/
theorem C5_amended_unique_names (dep sts : List WorkloadRow) (pods : List PodRow)
    (rels : List ReleaseRow) (all : Bool) (recs : List ServiceRecord)
    (hW : ((baseRows dep sts).map WorkloadRow.name).Nodup)
    (hP : (pods.map PodRow.name).Nodup)
    (hR : (rels.map ReleaseRow.name).Nodup)
    (h : getServices dep sts pods rels all = .ok recs) :
    (recs.map ServiceRecord.name).Nodup := by
  have key : ∀ rows : List PodJoined,
      rows.map PodJoined.name = (baseRows dep sts).map WorkloadRow.name →
      ((joinRels rows rels).map ServiceRecord.name).Nodup := by
    intro rows hrows
    rw [joinRels_map_name rows rels hR, hrows]
    exact hW
  by_cases hWe : baseRows dep sts = []
  · exfalso
    simp [getServices, hWe] at h
  · have hRne : rels ≠ [] := by
      intro hrels
      subst hrels
      rcases hpods0 : pods with _ | ⟨p, ptl⟩
      · subst hpods0
        cases all with
        | false =>
            rw [getServices_noPods_raise dep sts [] hWe] at h
            exact Outcome.noConfusion h
        | true =>
            rw [getServices_empty_rels_crash dep sts [] true hWe (Or.inr rfl)] at h
            exact Outcome.noConfusion h
      · have hPne : pods ≠ [] := by rw [hpods0]; exact List.cons_ne_nil p ptl
        rw [getServices_empty_rels_crash dep sts pods all hWe (Or.inl hPne)] at h
        exact Outcome.noConfusion h
    rcases hpods : pods with _ | ⟨p, ptl⟩
    · subst hpods
      cases all with
      | false =>
          rw [getServices_noPods_raise dep sts rels hWe] at h
          exact Outcome.noConfusion h
      | true =>
          have h1 := getServices_noPods_all dep sts rels hWe hRne
          have hrecs := Outcome.ok.inj (h.symm.trans h1)
          rw [hrecs]
          refine key _ ?_
          rw [List.map_map]
          rfl
    · have hPne : pods ≠ [] := by rw [hpods]; exact List.cons_ne_nil p ptl
      have hbase : ((joinPods (baseRows dep sts) pods).map PodJoined.name) =
          (baseRows dep sts).map WorkloadRow.name :=
        joinPods_map_name (baseRows dep sts) pods hP
      cases all with
      | true =>
          have h1 := getServices_shape_all dep sts pods rels hWe hPne hRne
          have hrecs := Outcome.ok.inj (h.symm.trans h1)
          rw [hrecs]
          exact key _ hbase
      | false =>
          have h1 := getServices_shape_filter dep sts pods rels hWe hPne hRne
          have hrecs := Outcome.ok.inj (h.symm.trans h1)
          rw [hrecs]
          have hsub : List.Sublist
              (((joinRels (joinPods (baseRows dep sts) pods) rels).filter
                (fun r => r.running == true)).map ServiceRecord.name)
              ((joinRels (joinPods (baseRows dep sts) pods) rels).map
                ServiceRecord.name) :=
            (List.filter_sublist _).map ServiceRecord.name
          exact hsub.nodup (key _ hbase)

/-- C5 witness: the amended statement applied to a two-service namespace
with one Running pod and one release. -/
theorem C5_amended_unique_names_witness :
    (([⟨"a", some "0.1", true, 1, some "2024-01-01 10:00:00", "i"⟩,
      ⟨"b", none, false, 0, none, "j"⟩] : List ServiceRecord).map
        ServiceRecord.name).Nodup :=
  C5_amended_unique_names [⟨"a", "i"⟩] [⟨"b", "j"⟩] [⟨"a", "Running", 1⟩]
    [⟨"a", "0.1", "2024-01-01 10:00:00"⟩] true
    [⟨"a", some "0.1", true, 1, some "2024-01-01 10:00:00", "i"⟩,
      ⟨"b", none, false, 0, none, "j"⟩]
    (by decide) (by decide) (by decide) rfl

/-- C7: every record returned by aggregate has a name drawn from the
workload base population, and a domain error can only arise from an empty
base population or an empty pod query — a pod or release row whose name
is absent from the workloads contributes no record and never causes a
failure. -/
theorem C7_workload_authority (dep sts : List WorkloadRow) (pods : List PodRow)
    (rels : List ReleaseRow) (all : Bool) :
    (∀ recs, getServices dep sts pods rels all = .ok recs →
      ∀ r ∈ recs, r.name ∈ (baseRows dep sts).map WorkloadRow.name) ∧
    (∀ e, getServices dep sts pods rels all = .error e →
      baseRows dep sts = [] ∨ pods = []) := by
  constructor
  · intro recs h r hr
    have hWe : baseRows dep sts ≠ [] := by
      intro hb
      simp [getServices, hb] at h
    have hmem : ∀ rows : List PodJoined,
        (∀ s ∈ rows, s.name ∈ (baseRows dep sts).map WorkloadRow.name) →
        r ∈ joinRels rows rels →
        r.name ∈ (baseRows dep sts).map WorkloadRow.name := by
      intro rows hrows hrj
      obtain ⟨s, hs_mem, hname⟩ := names_joinRels_sub rows rels r hrj
      rw [hname]
      exact hrows s hs_mem
    have hRne : rels ≠ [] := by
      intro hrels
      subst hrels
      rcases hpods0 : pods with _ | ⟨p, ptl⟩
      · subst hpods0
        cases all with
        | false =>
            rw [getServices_noPods_raise dep sts [] hWe] at h
            exact Outcome.noConfusion h
        | true =>
            rw [getServices_empty_rels_crash dep sts [] true hWe (Or.inr rfl)] at h
            exact Outcome.noConfusion h
      · have hPne : pods ≠ [] := by rw [hpods0]; exact List.cons_ne_nil p ptl
        rw [getServices_empty_rels_crash dep sts pods all hWe (Or.inl hPne)] at h
        exact Outcome.noConfusion h
    rcases hpods : pods with _ | ⟨p, ptl⟩
    · subst hpods
      cases all with
      | false =>
          rw [getServices_noPods_raise dep sts rels hWe] at h
          exact Outcome.noConfusion h
      | true =>
          have h1 := getServices_noPods_all dep sts rels hWe hRne
          have hrecs := Outcome.ok.inj (h.symm.trans h1)
          subst hrecs
          refine hmem _ ?_ hr
          intro s hs
          obtain ⟨w, hw_mem, hw⟩ := List.mem_map.mp hs
          subst hw
          exact List.mem_map_of_mem WorkloadRow.name hw_mem
    · have hPne : pods ≠ [] := by rw [hpods]; exact List.cons_ne_nil p ptl
      have hjoin : ∀ s ∈ joinPods (baseRows dep sts) pods,
          s.name ∈ (baseRows dep sts).map WorkloadRow.name := by
        intro s hs
        obtain ⟨w, hw_mem, hname⟩ := names_joinPods_sub (baseRows dep sts) pods s hs
        rw [hname]
        exact List.mem_map_of_mem WorkloadRow.name hw_mem
      cases all with
      | true =>
          have h1 := getServices_shape_all dep sts pods rels hWe hPne hRne
          have hrecs := Outcome.ok.inj (h.symm.trans h1)
          subst hrecs
          exact hmem _ hjoin hr
      | false =>
          have h1 := getServices_shape_filter dep sts pods rels hWe hPne hRne
          have hrecs := Outcome.ok.inj (h.symm.trans h1)
          subst hrecs
          exact hmem _ hjoin (List.mem_of_mem_filter hr)
  · intro e h
    by_cases hWe : baseRows dep sts = []
    · exact Or.inl hWe
    · rcases hpods : pods with _ | ⟨p, ptl⟩
      · exact Or.inr rfl
      · exfalso
        have hPne : pods ≠ [] := by rw [hpods]; exact List.cons_ne_nil p ptl
        rcases hrels : rels with _ | ⟨q, qs⟩
        · subst hrels
          rw [getServices_empty_rels_crash dep sts pods all hWe (Or.inl hPne)] at h
          exact Outcome.noConfusion h
        · have hRne : rels ≠ [] := by rw [hrels]; exact List.cons_ne_nil q qs
          cases all with
          | true =>
              rw [getServices_shape_all dep sts pods rels hWe hPne hRne] at h
              exact Outcome.noConfusion h
          | false =>
              rw [getServices_shape_filter dep sts pods rels hWe hPne hRne] at h
              exact Outcome.noConfusion h

/-- C7 witness: a pod row and a release row naming a service absent from
the workloads leave the single workload-derived record, whose name comes
from the workload population. -/
theorem C7_workload_authority_witness :
    (⟨"a", none, false, 0, none, "i"⟩ : ServiceRecord).name ∈
      (baseRows [⟨"a", "i"⟩] []).map WorkloadRow.name :=
  (C7_workload_authority [⟨"a", "i"⟩] [] [⟨"ghost", "Running", 1⟩]
      [⟨"phantom", "9.9", "2024-01-01 00:00:00"⟩] true).1
    [⟨"a", none, false, 0, none, "i"⟩] rfl
    ⟨"a", none, false, 0, none, "i"⟩ (by decide)

end EdgeContainers
